import Mathlib

/-!
Verification development for the cdpgen code generator (cmd/cdpgen/main.go).

The generator reads protocol schema documents, merges and sorts their domains,
classifies every declared type (phase 1, the non-pointer map), and emits typed
Go declarations for domain types, command argument/reply payloads and event
payloads.  This file embeds the generator's data model and emission logic and
proves properties about it.

Conventions of the embedding:
* Emission is modelled structurally: instead of the raw Printf text, each
  emitter returns the instantiation of its template's holes (field names,
  field types, json tags, setter names, ...), which is what the properties
  below are about.
* Generated enum methods (Valid, String, MarshalJSON, UnmarshalJSON) are
  embedded as Lean functions parameterised by the template holes, i.e. the
  enum's title-cased name and its declared label list.  A Go byte slice that
  may be nil is modelled as an Option String (none = nil slice).
* The proto package (schema model accessors) is not part of the sources under
  verification; functions taken from it are modelled from the specification
  and marked as such in their doc comments.
-/

/-- Go strings.Title / exported-name casing, used by the modelled proto name
accessors: upper-case the first character. -/
def upperFirst (s : String) : String :=
  match s.data with
  | [] => s
  | c :: cs => String.mk (Char.toUpper c :: cs)

/-- Schema model node, after proto.AnyType: used both for declared types and
for properties/parameters/returns.  Fields follow the schema shape of spec
section 6: a name, a description, a primitive kind tag (`TypeVal`, the Go
field is called Type), a reference to another type declaration (`Ref`), the
optional flag, the declared enum labels, the resolved Go type of the array
item (standing in for proto's recursive Items pointer) and the list of record
properties. -/
inductive AnyType : Type where
  | mk
      (IDName : String)
      (NameName : String)
      (Descr : String)
      (TypeVal : String)
      (Ref : String)
      (Optional : Bool)
      (Enum : List String)
      (ItemsGoType : String)
      (Properties : List AnyType)

def AnyType.IDName : AnyType → String
  | .mk v _ _ _ _ _ _ _ _ => v

def AnyType.NameName : AnyType → String
  | .mk _ v _ _ _ _ _ _ _ => v

def AnyType.Descr : AnyType → String
  | .mk _ _ v _ _ _ _ _ _ => v

def AnyType.TypeVal : AnyType → String
  | .mk _ _ _ v _ _ _ _ _ => v

def AnyType.Ref : AnyType → String
  | .mk _ _ _ _ v _ _ _ _ => v

def AnyType.Optional : AnyType → Bool
  | .mk _ _ _ _ _ v _ _ _ => v

def AnyType.Enum : AnyType → List String
  | .mk _ _ _ _ _ _ v _ _ => v

def AnyType.ItemsGoType : AnyType → String
  | .mk _ _ _ _ _ _ _ v _ => v

def AnyType.Properties : AnyType → List AnyType
  | .mk _ _ _ _ _ _ _ _ v => v

/-- Schema command, after proto.Command: a name, a description, ordered
parameters and ordered returns. -/
structure Command where
  NameName : String
  Descr : String := ""
  Parameters : List AnyType := []
  Returns : List AnyType := []

/-- Schema event, after proto.Event: a name, a description and ordered
parameters (the event payload fields). -/
structure Event where
  NameName : String
  Descr : String := ""
  Parameters : List AnyType := []

/-- Schema domain, after proto.Domain: a name (the Go field is also called
Domain), a description, and the declared types, commands and events. -/
structure Domain where
  Domain : String
  Descr : String := ""
  Types : List AnyType := []
  Commands : List Command := []
  Events : List Event := []

/-- Modelled from the spec: proto.AnyType.IsEnum (the proto package is not
under the verified sources).  Spec section 3: an enumerated value set is an
ordered list of string labels declared on a type; a node is an enum exactly
when it declares labels. -/
def AnyType.IsEnum (t : AnyType) : Bool :=
  !t.Enum.isEmpty

/-- Modelled from the spec: proto.AnyType.GoType (the proto package is not
under the verified sources).  Spec sections 4.2 and 6: a reference resolves to
the referenced type's name (cross-package qualification is elided here, the
properties below never depend on it); an enumerated type reports the "enum"
dispatch tag, a record with properties the "struct" tag (these tags drive
DomainType's switch in main.go); arrays map to a slice of the item type, maps
and type-free payloads to their reference-like Go representations, and
primitives to the corresponding Go primitives. -/
def AnyType.GoType (t : AnyType) (pkg : String) (d : Domain) : String :=
  if t.Ref ≠ "" then t.Ref
  else if t.IsEnum then "enum"
  else if t.TypeVal = "object" then
    (if t.Properties.isEmpty then "map[string]interface\x7b\x7d" else "struct")
  else if t.TypeVal = "array" then "[]" ++ t.ItemsGoType
  else if t.TypeVal = "string" then "string"
  else if t.TypeVal = "integer" then "int"
  else if t.TypeVal = "number" then "float64"
  else if t.TypeVal = "boolean" then "bool"
  else if t.TypeVal = "any" then "json.RawMessage"
  else "RawMessage"

/-- Modelled from the spec: proto.AnyType.Name (the proto package is not under
the verified sources).  Spec section 6: schema property names are used
verbatim as identifiers. -/
def AnyType.Name (t : AnyType) (d : Domain) : String :=
  t.NameName

/-- Modelled from the spec: proto.AnyType.ExportedName (the proto package is
not under the verified sources).  Spec section 9: exported-name casing of the
schema name. -/
def AnyType.ExportedName (t : AnyType) (d : Domain) : String :=
  upperFirst t.NameName

/-- Modelled from the spec: proto.AnyType.TypeDeclName stands for the Name
accessor applied to a type declaration; spec section 4.2 qualifies a type by
its domain. -/
def AnyType.TypeDeclName (t : AnyType) (d : Domain) : String :=
  d.Domain ++ upperFirst t.IDName

/-- Modelled from the spec: proto.Command.ArgsName (the proto package is not
under the verified sources).  Spec sections 4.3 and 4.4: the argument payload
type is named after the domain and the command. -/
def Command.ArgsName (c : Command) (d : Domain) : String :=
  d.Domain ++ upperFirst c.NameName ++ "Args"

/-- Modelled from the spec: proto.Command.ReplyName (the proto package is not
under the verified sources). -/
def Command.ReplyName (c : Command) (d : Domain) : String :=
  d.Domain ++ upperFirst c.NameName ++ "Reply"

/-- Modelled from the spec: proto.Event.ReplyName (the proto package is not
under the verified sources). -/
def Event.ReplyName (e : Event) (d : Domain) : String :=
  d.Domain ++ upperFirst e.NameName ++ "Reply"

/-- Global constant OptionalPropPrefix of main.go (line 24): the prefix put in
front of the exported name of an optional property in argument payloads.  It
is the empty string. -/
def OptionalPropPrefix : String := ""

/-- Go strings.HasPrefix, over the character lists of the two strings. -/
def hasPrefixGo (s pre : String) : Bool :=
  pre.data.isPrefixOf s.data

/-- isNonPointer of main.go (lines 646-659): a type whose Go representation is
reference-like (enum, slice, map, raw message or the empty interface) does not
need a pointer to represent absence. -/
def isNonPointer (pkg : String) (d : Domain) (t : AnyType) : Bool :=
  let typ := t.GoType pkg d
  t.IsEnum || hasPrefixGo typ "[]" || hasPrefixGo typ "map[" ||
    typ == "json.RawMessage" || typ == "RawMessage" || typ == "interface\x7b\x7d"

/-- Phase-1 classification pass of main.go (lines 111-119): collect, over all
domains, the names of declared types classified non-pointer, both unqualified
and qualified by the types package. -/
def buildNonPtrMap (tgpkg : String) (domains : List Domain) : List String :=
  domains.flatMap fun d =>
    d.Types.flatMap fun t =>
      if isNonPointer tgpkg d t then
        [t.TypeDeclName d, tgpkg ++ "." ++ t.TypeDeclName d]
      else []

/-- Instantiation of the struct-field template of printStructProperties
(main.go line 412): the exported field name, the Go type, the json tag and the
documentation comment. -/
structure EmittedField where
  exportedName : String
  ptype : String
  jsontag : String
  descr : String
deriving DecidableEq, Repr

/-- Loop body of printStructProperties in main.go (lines 390-413): compute the
emitted field for one property.  An optional property gets a pointer type
unless it is classified non-pointer, and always gets the omitempty json hint;
a property whose type equals the enclosing record's name is forced to a
pointer; an optional property of an argument payload is renamed with
OptionalPropPrefix. -/
def emitField (pkg : String) (npm : List String) (d : Domain) (name : String)
    (ptrOptional renameOptional : Bool) (prop : AnyType) : EmittedField :=
  let jsontag := prop.NameName
  let ptype := prop.GoType pkg d
  let ptype1 :=
    if prop.Optional &&
        (ptrOptional && !npm.contains ptype && !isNonPointer pkg d prop)
      then "*" ++ ptype else ptype
  let jsontag1 := if prop.Optional then jsontag ++ ",omitempty" else jsontag
  let ptype2 := if ptype1 = name then "*" ++ ptype1 else ptype1
  let exported := prop.ExportedName d
  let exported2 :=
    if renameOptional && prop.Optional then OptionalPropPrefix ++ exported
    else exported
  ⟨exported2, ptype2, jsontag1, prop.Descr⟩

/-- printStructProperties of main.go (lines 389-414): emit one field per
property, in order. -/
def printStructProperties (pkg : String) (npm : List String) (d : Domain)
    (name : String) (props : List AnyType) (ptrOptional renameOptional : Bool) :
    List EmittedField :=
  props.map (emitField pkg npm d name ptrOptional renameOptional)

/-- domainTypeStruct of main.go (lines 416-420): the fields of a domain type
record. -/
def domainTypeStruct (pkg : String) (npm : List String) (d : Domain)
    (t : AnyType) : List EmittedField :=
  printStructProperties pkg npm d (t.TypeDeclName d) t.Properties true false

/-- domainEventReply of main.go (lines 630-636): the fields of an event
payload record. -/
def domainEventReply (pkg : String) (npm : List String) (d : Domain)
    (e : Event) : List EmittedField :=
  printStructProperties pkg npm d (e.ReplyName d) e.Parameters true false

/-- Comparison closure passed to sort.Slice in main.go (lines 67-69): strict
lexicographic order on the domain names. -/
def domainLess (a b : Domain) : Prop :=
  a.Domain < b.Domain

instance : DecidableRel domainLess := fun a b =>
  inferInstanceAs (Decidable (a.Domain < b.Domain))

/-- Merge step of main.go (line 66): the second document's domains are
appended to the first document's. -/
def mergeDomains (protocolDomains jsProtocolDomains : List Domain) : List Domain :=
  protocolDomains ++ jsProtocolDomains

/-- Contract of the Go standard library sort.Slice call in main.go (lines
67-69): the output is a permutation of the input with no pair out of order
with respect to the less closure.  Go documents sort.Slice as not guaranteed
to be stable, so the contract constrains nothing further. -/
def IsSortSliceResult (input output : List Domain) : Prop :=
  input.Perm output ∧ output.Pairwise fun a b => ¬ domainLess b a

/-- Instantiation of the fluent-setter template of domainCmdArgs (main.go
lines 573-579): the method name, the identifier of the by-value parameter,
its Go type, the args-struct field assigned the parameter's address, and the
argument payload type name, which the template uses both as the receiver type
and as the return type (the body is: assign the address, return the
receiver). -/
structure SetterDecl where
  methodName : String
  argName : String
  argType : String
  assignedField : String
  argsTypeName : String
deriving DecidableEq, Repr

/-- Setter-loop body of domainCmdArgs in main.go (lines 563-580): no setter is
produced for a required parameter or for an optional parameter classified
non-pointer; otherwise one setter is produced, with the parameter identifier
stripped of its final character when it collides with the reserved words
range or type. -/
def setterFor (pkg : String) (npm : List String) (d : Domain) (c : Command)
    (arg : AnyType) : Option SetterDecl :=
  let typ := arg.GoType pkg d
  let isNonPtr := npm.contains typ
  if !arg.Optional || isNonPtr || isNonPointer pkg d arg then none
  else
    let name := arg.Name d
    let name2 := if name = "range" || name = "type" then name.dropRight 1 else name
    some
      { methodName := "Set" ++ arg.ExportedName d
        argName := name2
        argType := arg.GoType "cdp" d
        assignedField := OptionalPropPrefix ++ arg.ExportedName d
        argsTypeName := c.ArgsName d }

/-- domainCmdArgs of main.go (lines 556-581): the argument payload struct
fields (renameOptional is true there) and the fluent setters. -/
def domainCmdArgs (pkg : String) (npm : List String) (d : Domain)
    (c : Command) : List EmittedField × List SetterDecl :=
  (printStructProperties pkg npm d (c.ArgsName d) c.Parameters true true,
   c.Parameters.filterMap (setterFor pkg npm d c))

/-- domainCmdReply of main.go (lines 583-589): the reply payload struct
fields. -/
def domainCmdReply (pkg : String) (npm : List String) (d : Domain)
    (c : Command) : List EmittedField :=
  printStructProperties pkg npm d (c.ReplyName d) c.Returns true false

/-- Payload declaration emitted for a command: the argument payload with its
setters, or the reply payload. -/
inductive CmdDecl : Type where
  | argsDecl (name : String) (fields : List EmittedField)
      (setters : List SetterDecl)
  | replyDecl (name : String) (fields : List EmittedField)
deriving DecidableEq, Repr

/-- DomainCmd of main.go (lines 545-554): the argument payload is emitted
exactly when the command has parameters and the reply payload exactly when it
has returns. -/
def DomainCmd (pkg : String) (npm : List String) (d : Domain)
    (c : Command) : List CmdDecl :=
  (if c.Parameters.length > 0 then
    [CmdDecl.argsDecl (c.ArgsName d) (domainCmdArgs pkg npm d c).1
      (domainCmdArgs pkg npm d c).2]
  else []) ++
  (if c.Returns.length > 0 then
    [CmdDecl.replyDecl (c.ReplyName d) (domainCmdReply pkg npm d c)]
  else [])

/-- Template holes of the generated enumerated type (domainTypeEnum of
main.go, lines 447-521, realEnum branch): the title-cased type name and the
declared labels in order. -/
structure EnumDecl where
  name : String
  labels : List String
deriving DecidableEq, Repr

/-- domainTypeEnum of main.go (lines 447-521): the generated enum is named by
strings.Title of the type name and carries the declared labels, which receive
ordinals 1..N in declaration order (ordinal 0 is the generated NotSet
constant). -/
def domainTypeEnum (d : Domain) (t : AnyType) : EnumDecl :=
  ⟨upperFirst (t.TypeDeclName d), t.Enum⟩

/-- JSON encoding of a plain string value, as produced by json.Marshal on the
enum labels (which contain no characters needing escapes): the string between
double quotes. -/
def jsonQuote (s : String) : String :=
  "\"" ++ s ++ "\""

/-- Generated Valid method (template at main.go lines 464-466): the ordinal is
valid when it lies between 1 and the number of declared labels. -/
def enumValid (labels : List String) (e : Int) : Bool :=
  decide (1 ≤ e) && decide (e ≤ (labels.length : Int))

/-- Generated String method (template at main.go lines 468-480): ordinal 0
prints the NotSet constant name, ordinals 1..N print the corresponding label,
anything else falls through to the fmt.Sprintf default case. -/
def enumString (name : String) (labels : List String) (e : Int) : String :=
  if e = 0 then name ++ "NotSet"
  else if 1 ≤ e then
    match labels[(e - 1).toNat]? with
    | some l => l
    | none => name ++ "(" ++ toString e ++ ")"
  else name ++ "(" ++ toString e ++ ")"

/-- Generated MarshalJSON method (template at main.go lines 482-487): ordinal
0 encodes to the wire null literal, anything else to the JSON encoding of the
String method's result. -/
def enumMarshalJSON (name : String) (labels : List String) (e : Int) : String :=
  if e = 0 then "null" else jsonQuote (enumString name labels e)

/-- Switch cases of the generated UnmarshalJSON method (template at main.go
lines 494-499): compare the wire data with the quoted form of each label in
declaration order, ordinal k for the first case.  Returns the matched ordinal,
or none for the default case. -/
def enumDecode (labels : List String) (s : String) (k : Int) : Option Int :=
  match labels with
  | [] => none
  | l :: ls => if jsonQuote l = s then some k else enumDecode ls s (k + 1)

/-- Generated UnmarshalJSON method (template at main.go lines 489-505): nil
data (modelled as none) sets ordinal 0; otherwise the data must equal the
quoted form of a declared label, whose ordinal is stored; any other data is
rejected with an error naming the enum type and echoing the data. -/
def enumUnmarshalJSON (name : String) (labels : List String)
    (data : Option String) : Except String Int :=
  match data with
  | none => Except.ok 0
  | some s =>
    match enumDecode labels s 1 with
    | some i => Except.ok i
    | none => Except.error ("bad " ++ name ++ ": " ++ s)

/-- Generator of main.go (lines 180-187): the output buffer of one package,
with the content and header flags.  The buffer accumulates the emitted text;
the directory and package name locate the output file. -/
structure Generator where
  dir : String
  pkg : String
  imports : List String := []
  buf : String := ""
  hasContent : Bool := false
  hasHeader : Bool := false

/-- clear of main.go (lines 216-220). -/
def Generator.clear (g : Generator) : Generator :=
  { g with hasContent := false, hasHeader := false, buf := "" }

/-- format of main.go (lines 223-233), with go/format.Source supplied as the
pretty-printer collaborator (spec section 6): on success the formatted text is
returned with no diagnostics; on failure the raw buffer is returned together
with the two warning lines the function logs. -/
def Generator.format (g : Generator)
    (formatSource : String → Except String String) : String × List String :=
  match formatSource g.buf with
  | Except.ok src => (src, [])
  | Except.error err =>
    (g.buf,
     ["warning: internal error: invalid Go generated: " ++ err,
      "warning: compile the package to analyze the error"])

/-- Outcome of writeFile: the buffer was skipped, or the given contents were
persisted at the given path. -/
inductive WriteOutcome : Type where
  | skippedNoContent (path : String)
  | skippedEmptyBuffer (path : String)
  | wrote (path : String) (contents : String)
deriving DecidableEq, Repr

/-- writeFile of main.go (lines 198-214): skip (and clear) a buffer with no
content, skip an empty buffer, otherwise persist the formatted buffer — or
the raw buffer when the pretty-printer fails — and clear.  The returned list
collects the log lines in order; the GOPATH prefix of the output path is
elided.  The function is total: a formatting failure is not an abort. -/
def Generator.writeFile (g : Generator)
    (formatSource : String → Except String String) (f : String) :
    WriteOutcome × List String × Generator :=
  let fp := g.dir ++ "/" ++ f
  if !g.hasContent then
    (WriteOutcome.skippedNoContent fp,
     ["No content, skipping " ++ fp ++ "..."], g.clear)
  else if g.buf = "" then
    (WriteOutcome.skippedEmptyBuffer fp,
     ["Empty buffer, skipping " ++ fp ++ "..."], g)
  else
    let fmtd := g.format formatSource
    (WriteOutcome.wrote fp fmtd.1,
     ("Writing " ++ fp ++ "...") :: fmtd.2, g.clear)

theorem jsonQuote_ne_null (l : String) : jsonQuote l ≠ "null" := by
  intro h
  have h2 := congrArg String.data h
  simp only [jsonQuote, String.data_append, List.cons_append, List.nil_append] at h2
  injection h2 with h3 _
  exact absurd h3 (by decide)

theorem enumDecode_eq_none (labels : List String) (s : String)
    (h : s ∉ labels.map jsonQuote) : ∀ k, enumDecode labels s k = none := by
  induction labels with
  | nil => intro k; rfl
  | cons l ls ih =>
    intro k
    simp only [List.map_cons, List.mem_cons, not_or] at h
    rw [enumDecode, if_neg (fun he => h.1 he.symm)]
    exact ih h.2 (k + 1)

theorem null_notMem_quoted (labels : List String) :
    "null" ∉ labels.map jsonQuote := by
  intro hm
  obtain ⟨l, _, he⟩ := List.mem_map.mp hm
  exact jsonQuote_ne_null l he

/-- C1, amended: for every generated enumerated type, the generated
MarshalJSON encodes ordinal 0 as the wire null literal (not the NotSet label
string), and the generated UnmarshalJSON maps nil (absent) wire data to
ordinal 0; however the unmarshaller rejects the literal wire token null with
a decode error, so only the decode-absent-then-encode direction round-trips:
encoding ordinal 0 and decoding the resulting bytes fails rather than
yielding ordinal 0. -/
theorem enum_notset_encodes_null_nil_decodes_notset (name : String)
    (labels : List String) :
    enumMarshalJSON name labels 0 = "null"
    ∧ enumUnmarshalJSON name labels none = Except.ok 0
    ∧ enumUnmarshalJSON name labels (some "null") =
        Except.error ("bad " ++ name ++ ": " ++ "null") := by
  refine ⟨rfl, rfl, ?_⟩
  have hd := enumDecode_eq_none labels "null" (null_notMem_quoted labels) 1
  simp [enumUnmarshalJSON, hd]

/-- C1, counterexample: for the concrete enumerated type Level with the single
label verbose, encoding ordinal 0 yields the wire bytes null, and feeding
those very bytes back to the generated UnmarshalJSON does not yield ordinal 0
but a decode error — the claimed marshal-then-unmarshal round-trip at ordinal
0 fails (only nil data decodes to 0). -/
theorem enum_null_roundtrip_counterexample :
    enumMarshalJSON "Level" ["verbose"] 0 = "null"
    ∧ enumUnmarshalJSON "Level" ["verbose"]
        (some (enumMarshalJSON "Level" ["verbose"] 0)) =
        Except.error "bad Level: null"
    ∧ enumUnmarshalJSON "Level" ["verbose"]
        (some (enumMarshalJSON "Level" ["verbose"] 0)) ≠ Except.ok 0 :=
  ⟨rfl, rfl, by
    intro h
    rw [show enumUnmarshalJSON "Level" ["verbose"]
          (some (enumMarshalJSON "Level" ["verbose"] 0)) =
        Except.error "bad Level: null" from rfl] at h
    exact Except.noConfusion h⟩

/-- C6: for every generated enumerated type, decoding wire data that matches
none of the declared labels (in their quoted wire form) fails with an error
that contains both the enumerated type's name and the offending wire data. -/
theorem enum_unknown_label_decode_error (name : String) (labels : List String)
    (s : String) (h : s ∉ labels.map jsonQuote) :
    enumUnmarshalJSON name labels (some s) =
      Except.error ("bad " ++ name ++ ": " ++ s) := by
  have hd := enumDecode_eq_none labels s h 1
  simp [enumUnmarshalJSON, hd]

theorem enum_unknown_label_decode_error_witness :
    "\"json\"" ∉ (["xml"].map jsonQuote)
    ∧ enumUnmarshalJSON "OutputFormat" ["xml"] (some "\"json\"") =
        Except.error ("bad " ++ "OutputFormat" ++ ": " ++ "\"json\"") :=
  ⟨by decide,
   enum_unknown_label_decode_error "OutputFormat" ["xml"] "\"json\"" (by decide)⟩

/-- C10: for every generated enumerated type with N declared labels, the
generated Valid method returns true exactly when the ordinal lies between 1
and N inclusive; in particular ordinal 0 (the NotSet value) is never
valid. -/
theorem enum_valid_iff_ordinal_in_range (d : Domain) (t : AnyType) (e : Int) :
    (enumValid (domainTypeEnum d t).labels e = true ↔
      1 ≤ e ∧ e ≤ (t.Enum.length : Int))
    ∧ enumValid (domainTypeEnum d t).labels 0 = false := by
  constructor
  · simp [enumValid, domainTypeEnum]
  · simp [enumValid]

/-- C2, amended: merging the domain lists of two schema documents and sorting
with the sort.Slice call of main.go produces a sequence whose names are
sorted and are a permutation of the names of the merged input, and the name
sequence is the same regardless of which document comes first — but the sort
is not stable (sort.Slice gives no such guarantee), so two domains with equal
names need not keep their relative input order. -/
theorem merge_sort_domain_names_canonical (a b o₁ o₂ : List Domain)
    (h₁ : IsSortSliceResult (mergeDomains a b) o₁)
    (h₂ : IsSortSliceResult (mergeDomains b a) o₂) :
    (o₁.map Domain.Domain).Sorted (· ≤ ·)
    ∧ ((mergeDomains a b).map Domain.Domain).Perm (o₁.map Domain.Domain)
    ∧ o₁.map Domain.Domain = o₂.map Domain.Domain := by
  obtain ⟨hp₁, hs₁⟩ := h₁
  obtain ⟨hp₂, hs₂⟩ := h₂
  have sorted₁ : (o₁.map Domain.Domain).Sorted (· ≤ ·) := by
    rw [List.Sorted, List.pairwise_map]
    exact hs₁.imp fun hx => not_lt.mp hx
  have sorted₂ : (o₂.map Domain.Domain).Sorted (· ≤ ·) := by
    rw [List.Sorted, List.pairwise_map]
    exact hs₂.imp fun hx => not_lt.mp hx
  have pm₁ := hp₁.map Domain.Domain
  have pm₂ := hp₂.map Domain.Domain
  have pinput : (mergeDomains a b).Perm (mergeDomains b a) :=
    List.perm_append_comm
  have pout : (o₁.map Domain.Domain).Perm (o₂.map Domain.Domain) :=
    pm₁.symm.trans ((pinput.map Domain.Domain).trans pm₂)
  exact ⟨sorted₁, pm₁, List.eq_of_perm_of_sorted pout sorted₁ sorted₂⟩

theorem not_domainLess_of_toList {a b : Domain}
    (h : ¬ b.Domain.toList < a.Domain.toList) :
    ¬ domainLess b a :=
  fun hl => h (String.lt_iff_toList_lt.mp hl)

theorem pairwise_notLess_pair {a b : Domain}
    (h : ¬ b.Domain.toList < a.Domain.toList) :
    List.Pairwise (fun x y => ¬ domainLess y x) [a, b] := by
  constructor
  · intro x hx
    rw [List.mem_singleton] at hx
    subst hx
    exact not_domainLess_of_toList h
  · exact List.pairwise_singleton _ _

theorem merge_sort_domain_names_canonical_witness :
    ([(⟨"Animation", "", [], [], []⟩ : Domain), ⟨"Browser", "", [], [], []⟩].map
        Domain.Domain).Sorted (· ≤ ·)
    ∧ ((mergeDomains [(⟨"Browser", "", [], [], []⟩ : Domain)]
          [⟨"Animation", "", [], [], []⟩]).map Domain.Domain).Perm
        ([(⟨"Animation", "", [], [], []⟩ : Domain),
          ⟨"Browser", "", [], [], []⟩].map Domain.Domain)
    ∧ [(⟨"Animation", "", [], [], []⟩ : Domain), ⟨"Browser", "", [], [], []⟩].map
          Domain.Domain =
        [(⟨"Animation", "", [], [], []⟩ : Domain), ⟨"Browser", "", [], [], []⟩].map
          Domain.Domain :=
  merge_sort_domain_names_canonical
    [⟨"Browser", "", [], [], []⟩] [⟨"Animation", "", [], [], []⟩]
    [⟨"Animation", "", [], [], []⟩, ⟨"Browser", "", [], [], []⟩]
    [⟨"Animation", "", [], [], []⟩, ⟨"Browser", "", [], [], []⟩]
    ⟨List.Perm.swap _ _ _, pairwise_notLess_pair (by decide)⟩
    ⟨List.Perm.refl _, pairwise_notLess_pair (by decide)⟩

/-- C2, counterexample: the sort.Slice contract admits, for an input holding
two distinct domains with the equal name A, an output in which their relative
input order is swapped — the claimed stability (ties keep original input
order) does not hold of the code, which uses the unstable sort.Slice rather
than sort.SliceStable. -/
theorem merge_sort_stability_counterexample :
    IsSortSliceResult
      (mergeDomains [(⟨"A", "first", [], [], []⟩ : Domain)]
        [⟨"A", "second", [], [], []⟩])
      [⟨"A", "second", [], [], []⟩, ⟨"A", "first", [], [], []⟩]
    ∧ (⟨"A", "first", [], [], []⟩ : Domain).Domain =
        (⟨"A", "second", [], [], []⟩ : Domain).Domain
    ∧ [(⟨"A", "second", [], [], []⟩ : Domain), ⟨"A", "first", [], [], []⟩] ≠
        [⟨"A", "first", [], [], []⟩, ⟨"A", "second", [], [], []⟩] := by
  refine ⟨⟨List.Perm.swap _ _ _, pairwise_notLess_pair (by decide)⟩, rfl, ?_⟩
  intro h
  have h2 := congrArg (List.map Domain.Descr) h
  exact absurd h2 (by decide)

theorem length_filterMap_eq_length_filter {α β : Type} (f : α → Option β)
    (p : α → Bool) (h : ∀ x, (f x).isSome = p x) :
    ∀ l : List α, (l.filterMap f).length = (l.filter p).length := by
  intro l
  induction l with
  | nil => rfl
  | cons x xs ih =>
    cases hfx : f x with
    | none =>
      have hp : p x = false := by rw [← h]; simp [hfx]
      simp [List.filterMap_cons, hfx, List.filter_cons, hp, ih]
    | some b =>
      have hp : p x = true := by rw [← h]; simp [hfx]
      simp [List.filterMap_cons, hfx, List.filter_cons, hp, ih]

theorem setterFor_isSome (pkg : String) (npm : List String) (d : Domain)
    (c : Command) (arg : AnyType) :
    (setterFor pkg npm d c arg).isSome =
      (arg.Optional && !npm.contains (arg.GoType pkg d) &&
        !isNonPointer pkg d arg) := by
  unfold setterFor
  cases ho : arg.Optional <;>
    cases hn : npm.contains (arg.GoType pkg d) <;>
    cases hi : isNonPointer pkg d arg <;>
    simp only [ho, hn, hi, Bool.not_true, Bool.not_false, Bool.false_or,
      Bool.true_or, Bool.or_true, Bool.or_false, Bool.true_and,
      Bool.false_and, Bool.and_true, Bool.and_false] <;> rfl

theorem setterFor_some_spec (pkg : String) (npm : List String) (d : Domain)
    (c : Command) (arg : AnyType) (s : SetterDecl)
    (h : setterFor pkg npm d c arg = some s) :
    arg.Optional = true
    ∧ s.methodName = "Set" ++ arg.ExportedName d
    ∧ s.argName = (if arg.Name d = "range" || arg.Name d = "type"
        then (arg.Name d).dropRight 1 else arg.Name d)
    ∧ s.argType = arg.GoType "cdp" d
    ∧ s.assignedField = OptionalPropPrefix ++ arg.ExportedName d
    ∧ s.argsTypeName = c.ArgsName d := by
  simp only [setterFor] at h
  split at h
  · exact absurd h (by simp)
  · rename_i hguard
    simp only [Bool.or_eq_true, not_or, Bool.not_eq_true,
      Bool.not_eq_true'] at hguard
    rw [Option.some.injEq] at h
    subst h
    refine ⟨?_, rfl, rfl, rfl, rfl, rfl⟩
    cases hopt : arg.Optional
    · exact absurd hopt hguard.1.1
    · rfl

/-- C3, amended: for every command, the generator emits exactly one fluent
setter per optional parameter whose representation is indirect, that is, per
optional parameter not classified non-pointer (an optional parameter of enum,
slice, map, raw-message or empty-interface representation gets no setter);
each emitted setter takes the parameter by value (its argument type is the
parameter's Go type, without pointer), stores its address in the matching
field of the emitted args struct, and both its receiver and return type are
the args builder type. -/
theorem domainCmdArgs_one_setter_per_pointer_optional (pkg : String)
    (npm : List String) (d : Domain) (c : Command) :
    (domainCmdArgs pkg npm d c).2.length =
      (c.Parameters.filter fun a =>
        a.Optional && !npm.contains (a.GoType pkg d) &&
          !isNonPointer pkg d a).length
    ∧ ∀ s ∈ (domainCmdArgs pkg npm d c).2, ∃ arg ∈ c.Parameters,
        arg.Optional = true
        ∧ s.methodName = "Set" ++ arg.ExportedName d
        ∧ s.argType = arg.GoType "cdp" d
        ∧ s.argsTypeName = c.ArgsName d
        ∧ ∃ fld ∈ (domainCmdArgs pkg npm d c).1,
            fld.exportedName = s.assignedField := by
  constructor
  · exact length_filterMap_eq_length_filter _ _
      (fun x => setterFor_isSome pkg npm d c x) c.Parameters
  · intro s hs
    rw [show (domainCmdArgs pkg npm d c).2 =
        c.Parameters.filterMap (setterFor pkg npm d c) from rfl,
      List.mem_filterMap] at hs
    obtain ⟨arg, harg, hsome⟩ := hs
    obtain ⟨ho, hm, _, hat, haf, han⟩ := setterFor_some_spec pkg npm d c arg s hsome
    refine ⟨arg, harg, ho, hm, hat, han,
      emitField pkg npm d (c.ArgsName d) true true arg, ?_, ?_⟩
    · exact List.mem_map_of_mem _ harg
    · rw [haf]
      simp [emitField, ho]

theorem domainCmdArgs_one_setter_per_pointer_optional_witness :
    ((domainCmdArgs "cdpcmd" [] ⟨"Page", "", [], [], []⟩
        ⟨"reload", "",
          [.mk "" "ignoreCache" "" "boolean" "" true [] "" []], []⟩).2.length = 1)
    ∧ (∃ arg ∈ ([.mk "" "ignoreCache" "" "boolean" "" true [] "" []] :
          List AnyType),
        arg.Optional = true
        ∧ (⟨"SetIgnoreCache", "ignoreCache", "bool", "IgnoreCache",
              "PageReloadArgs"⟩ : SetterDecl).methodName =
            "Set" ++ arg.ExportedName ⟨"Page", "", [], [], []⟩) := by
  have h := domainCmdArgs_one_setter_per_pointer_optional "cdpcmd" []
    ⟨"Page", "", [], [], []⟩
    ⟨"reload", "", [.mk "" "ignoreCache" "" "boolean" "" true [] "" []], []⟩
  refine ⟨by rw [h.1]; rfl, ?_⟩
  have h2 := h.2 ⟨"SetIgnoreCache", "ignoreCache", "bool", "IgnoreCache",
    "PageReloadArgs"⟩ (by rw [show (domainCmdArgs "cdpcmd" []
      ⟨"Page", "", [], [], []⟩ ⟨"reload", "",
        [.mk "" "ignoreCache" "" "boolean" "" true [] "" []], []⟩).2 =
      [⟨"SetIgnoreCache", "ignoreCache", "bool", "IgnoreCache",
        "PageReloadArgs"⟩] from rfl]; exact List.mem_singleton.mpr rfl)
  obtain ⟨arg, harg, ho, hm, _⟩ := h2
  exact ⟨arg, harg, ho, hm⟩

/-- C3, counterexample: a command with one optional parameter of array type —
classified non-pointer by isNonPointer — gets no fluent setter at all, though
the claim demands exactly one setter for every optional parameter. -/
theorem setter_omitted_for_optional_array_counterexample :
    ((⟨"reload", "",
        [.mk "" "scriptsToEvaluate" "" "array" "" true [] "string" []], []⟩ :
        Command).Parameters.filter AnyType.Optional).length = 1
    ∧ (domainCmdArgs "cdpcmd" [] ⟨"Page", "", [], [], []⟩
        ⟨"reload", "",
          [.mk "" "scriptsToEvaluate" "" "array" "" true [] "string" []],
          []⟩).2 = [] :=
  ⟨rfl, rfl⟩

/-- C9: when a fluent setter is emitted for an optional pointer-represented
parameter named range or type (Go reserved words), the setter's argument
identifier is the parameter name with its final character removed (rang,
typ); every other parameter name is used as the setter argument
unmodified. -/
theorem setter_reserved_word_identifier (pkg : String) (npm : List String)
    (d : Domain) (c : Command) (arg : AnyType) (s : SetterDecl)
    (h : setterFor pkg npm d c arg = some s) :
    s.argName = (if arg.Name d = "range" then "rang"
      else if arg.Name d = "type" then "typ" else arg.Name d) := by
  obtain ⟨_, _, ha, _⟩ := setterFor_some_spec pkg npm d c arg s h
  by_cases h1 : arg.Name d = "range"
  · rw [ha, h1]
    rfl
  · by_cases h2 : arg.Name d = "type"
    · rw [ha, h2]
      rfl
    · rw [ha]
      simp [h1, h2]

theorem setter_reserved_word_identifier_witness :
    setterFor "cdpcmd" [] ⟨"Debugger", "", [], [], []⟩
      ⟨"setBlackboxedRanges", "", [], []⟩
      (.mk "" "range" "" "string" "" true [] "" []) =
      some ⟨"SetRange", "rang", "string", "Range",
        "DebuggerSetBlackboxedRangesArgs"⟩
    ∧ (⟨"SetRange", "rang", "string", "Range",
        "DebuggerSetBlackboxedRangesArgs"⟩ : SetterDecl).argName = "rang" := by
  refine ⟨rfl, ?_⟩
  have h := setter_reserved_word_identifier "cdpcmd" []
    ⟨"Debugger", "", [], [], []⟩ ⟨"setBlackboxedRanges", "", [], []⟩
    (.mk "" "range" "" "string" "" true [] "" [])
    ⟨"SetRange", "rang", "string", "Range",
      "DebuggerSetBlackboxedRangesArgs"⟩ rfl
  rw [h]
  rfl

theorem star_append_ne (s : String) : ("*" ++ s) ≠ s := by
  intro h
  have h2 := congrArg String.length h
  rw [String.length_append] at h2
  have h3 : ("*" : String).length = 1 := rfl
  rw [h3] at h2
  omega

theorem emitField_ptype_closed (pkg : String) (npm : List String) (d : Domain)
    (name : String) (ptrO renO : Bool) (prop : AnyType) :
    (emitField pkg npm d name ptrO renO prop).ptype =
      (if (if prop.Optional && (ptrO && !npm.contains (prop.GoType pkg d) &&
              !isNonPointer pkg d prop)
            then "*" ++ prop.GoType pkg d else prop.GoType pkg d) = name
       then "*" ++ (if prop.Optional &&
              (ptrO && !npm.contains (prop.GoType pkg d) &&
                !isNonPointer pkg d prop)
            then "*" ++ prop.GoType pkg d else prop.GoType pkg d)
       else (if prop.Optional &&
              (ptrO && !npm.contains (prop.GoType pkg d) &&
                !isNonPointer pkg d prop)
            then "*" ++ prop.GoType pkg d else prop.GoType pkg d)) := rfl

theorem emitField_jsontag_closed (pkg : String) (npm : List String)
    (d : Domain) (name : String) (ptrO renO : Bool) (prop : AnyType) :
    (emitField pkg npm d name ptrO renO prop).jsontag =
      (if prop.Optional then prop.NameName ++ ",omitempty"
       else prop.NameName) := rfl

/-- C5: for every property whose resolved Go type equals the enclosing
record's own name, the emitted representation of that property is indirect —
a pointer to that name — regardless of whether the property is optional (the
recursive-type guard of printStructProperties applies at every one of the
four struct emission sites, which all share emitField). -/
theorem self_reference_forces_pointer (pkg : String) (npm : List String)
    (d : Domain) (name : String) (ptrOptional renameOptional : Bool)
    (prop : AnyType) (h : prop.GoType pkg d = name) :
    (emitField pkg npm d name ptrOptional renameOptional prop).ptype =
      "*" ++ name := by
  rw [emitField_ptype_closed, h]
  by_cases hc : (prop.Optional && (ptrOptional && !npm.contains name &&
      !isNonPointer pkg d prop)) = true
  · rw [if_pos hc, if_neg (star_append_ne name)]
  · rw [if_neg hc, if_pos rfl]

theorem self_reference_forces_pointer_witness :
    ((.mk "" "parent" "" "" "DOMNode" true [] "" [] : AnyType).GoType
        "cdptype" ⟨"DOM", "", [], [], []⟩ = "DOMNode")
    ∧ (emitField "cdptype" [] ⟨"DOM", "", [], [], []⟩ "DOMNode" true false
        (.mk "" "parent" "" "" "DOMNode" true [] "" [])).ptype =
        "*" ++ "DOMNode" :=
  ⟨rfl, self_reference_forces_pointer "cdptype" [] ⟨"DOM", "", [], [], []⟩
    "DOMNode" true false (.mk "" "parent" "" "" "DOMNode" true [] "" []) rfl⟩

/-- C4, amended: in every emitted struct a required (non-optional) property
is never given a pointer representation unless the self-reference guard
applies (its resolved type equals the enclosing record's name, which forces a
pointer regardless of optionality); an optional property whose type is a
record — not registered in the non-pointer map and not classified
non-pointer — is always given a pointer representation together with the
omitempty wire hint.  The optional part assumes the enclosing name is not
itself the pointer form of the property's type, which holds of every Go type
identifier (identifiers never contain a star). -/
theorem emitField_indirection_rule (pkg : String) (npm : List String)
    (d : Domain) (name : String) (renameOptional : Bool) (prop : AnyType) :
    (prop.Optional = false →
      (emitField pkg npm d name true renameOptional prop).ptype =
        (if prop.GoType pkg d = name then "*" ++ prop.GoType pkg d
         else prop.GoType pkg d))
    ∧ (prop.Optional = true →
        npm.contains (prop.GoType pkg d) = false →
        isNonPointer pkg d prop = false →
        name ≠ "*" ++ prop.GoType pkg d →
        (emitField pkg npm d name true renameOptional prop).ptype =
            "*" ++ prop.GoType pkg d
        ∧ (emitField pkg npm d name true renameOptional prop).jsontag =
            prop.NameName ++ ",omitempty") := by
  constructor
  · intro ho
    rw [emitField_ptype_closed, ho]
    simp only [Bool.false_and]
    rw [if_neg (fun hcontra : false = true => Bool.noConfusion hcontra)]
  · intro ho hn hi hname
    constructor
    · rw [emitField_ptype_closed, ho, hn, hi]
      simp only [Bool.not_false, Bool.true_and, Bool.and_true, if_true]
      rw [if_neg (fun hcond => hname hcond.symm)]
    · rw [emitField_jsontag_closed, ho]
      rw [if_pos rfl]

theorem emitField_indirection_rule_witness :
    ((.mk "" "url" "" "string" "" false [] "" [] : AnyType).Optional = false
      ∧ (emitField "cdptype" [] ⟨"Console", "", [], [], []⟩ "ConsoleMessage"
          true false (.mk "" "url" "" "string" "" false [] "" [])).ptype =
          "string")
    ∧ ((.mk "" "stackTrace" "" "" "StackTrace" true [] "" [] : AnyType).Optional
        = true
      ∧ (emitField "cdptype" [] ⟨"Console", "", [], [], []⟩ "ConsoleMessage"
          true false (.mk "" "stackTrace" "" "" "StackTrace" true [] "" [])).ptype
          = "*" ++ "StackTrace"
      ∧ (emitField "cdptype" [] ⟨"Console", "", [], [], []⟩ "ConsoleMessage"
          true false
          (.mk "" "stackTrace" "" "" "StackTrace" true [] "" [])).jsontag =
          "stackTrace" ++ ",omitempty") := by
  constructor
  · refine ⟨rfl, ?_⟩
    have h := (emitField_indirection_rule "cdptype" []
      ⟨"Console", "", [], [], []⟩ "ConsoleMessage" false
      (.mk "" "url" "" "string" "" false [] "" [])).1 rfl
    rw [h]
    rfl
  · have h := (emitField_indirection_rule "cdptype" []
      ⟨"Console", "", [], [], []⟩ "ConsoleMessage" false
      (.mk "" "stackTrace" "" "" "StackTrace" true [] "" [])).2 rfl rfl rfl
      (fun hcontra => absurd (congrArg String.length hcontra) (by decide))
    exact ⟨rfl, h.1, h.2⟩

/-- C4, counterexample: a required (non-optional) property whose type equals
the enclosing record's name is emitted with a pointer representation — the
recursive-type guard of printStructProperties overrides the claimed
required-implies-direct rule. -/
theorem required_selfref_pointer_counterexample :
    ((.mk "" "parent" "" "" "DOMNode" false [] "" [] : AnyType).Optional
        = false)
    ∧ (emitField "cdptype" [] ⟨"DOM", "", [], [], []⟩ "DOMNode" true false
        (.mk "" "parent" "" "" "DOMNode" false [] "" [])).ptype =
        "*DOMNode" :=
  ⟨rfl, rfl⟩

/-- C7: for every command, an argument payload declaration is emitted if and
only if the command declares at least one parameter, and a reply payload
declaration is emitted if and only if it declares at least one return field;
a command with zero parameters and zero returns contributes no payload
declarations at all. -/
theorem domainCmd_payload_emission (pkg : String) (npm : List String)
    (d : Domain) (c : Command) :
    ((∃ n fs ss, CmdDecl.argsDecl n fs ss ∈ DomainCmd pkg npm d c) ↔
      c.Parameters ≠ [])
    ∧ ((∃ n fs, CmdDecl.replyDecl n fs ∈ DomainCmd pkg npm d c) ↔
      c.Returns ≠ [])
    ∧ (c.Parameters = [] → c.Returns = [] → DomainCmd pkg npm d c = []) := by
  unfold DomainCmd
  cases hp : c.Parameters <;> cases hr : c.Returns <;>
    simp [List.mem_append, List.mem_singleton]

theorem domainCmd_payload_emission_witness :
    DomainCmd "cdpcmd" [] ⟨"Page", "", [], [], []⟩
      ⟨"enable", "", [], []⟩ = [] :=
  (domainCmd_payload_emission "cdpcmd" [] ⟨"Page", "", [], [], []⟩
    ⟨"enable", "", [], []⟩).2.2 rfl rfl

/-- C8: when the pretty-printer collaborator rejects a generated buffer, the
raw unformatted buffer contents are persisted to the output file, the two
warning lines are surfaced after the write log line, and writeFile returns
normally with a cleared generator — a formatting failure is non-fatal and
generation continues. -/
theorem writeFile_formatter_failure_nonfatal (g : Generator)
    (formatSource : String → Except String String) (f msg : String)
    (hc : g.hasContent = true) (hb : g.buf ≠ "")
    (hf : formatSource g.buf = Except.error msg) :
    (g.writeFile formatSource f).1 =
      WriteOutcome.wrote (g.dir ++ "/" ++ f) g.buf
    ∧ (g.writeFile formatSource f).2.1 =
        ["Writing " ++ (g.dir ++ "/" ++ f) ++ "...",
         "warning: internal error: invalid Go generated: " ++ msg,
         "warning: compile the package to analyze the error"]
    ∧ (g.writeFile formatSource f).2.2 = g.clear := by
  unfold Generator.writeFile Generator.format
  simp [hc, hb, hf]

theorem writeFile_formatter_failure_nonfatal_witness :
    ((⟨"out", "cdp", [], "package cdp", true, true⟩ : Generator).writeFile
        (fun _ => Except.error "expected declaration") "cdp.go").1 =
      WriteOutcome.wrote ("out" ++ "/" ++ "cdp.go") "package cdp"
    ∧ ((⟨"out", "cdp", [], "package cdp", true, true⟩ : Generator).writeFile
        (fun _ => Except.error "expected declaration") "cdp.go").2.1 =
        ["Writing " ++ ("out" ++ "/" ++ "cdp.go") ++ "...",
         "warning: internal error: invalid Go generated: " ++
           "expected declaration",
         "warning: compile the package to analyze the error"]
    ∧ ((⟨"out", "cdp", [], "package cdp", true, true⟩ : Generator).writeFile
        (fun _ => Except.error "expected declaration") "cdp.go").2.2 =
        (⟨"out", "cdp", [], "package cdp", true, true⟩ : Generator).clear :=
  writeFile_formatter_failure_nonfatal
    ⟨"out", "cdp", [], "package cdp", true, true⟩
    (fun _ => Except.error "expected declaration") "cdp.go"
    "expected declaration" rfl (fun hcontra =>
      absurd (congrArg String.length hcontra) (by decide)) rfl
